import Mathlib

/-!
# Verification of the landscape-client sysinfo orchestrator specification

This file gives a shallow embedding of the `landscape-sysinfo` plugin-run
orchestrator (the `run` function of `landscape.sysinfo.deployment`, the
`SysInfoPluginRegistry`, and the fake event loop used by its test suite),
together with the version-comparison helpers of `landscape.lib.versioning`,
and proves the documented properties about them.

The repository snapshot contains the test modules
(`landscape/sysinfo/tests/test_deployment.py`, `landscape/lib/tests/test_versioning.py`)
but not the implementation modules themselves, so the orchestrator and the
versioning helpers are modelled from the specification's description of the
data model, the state machine and the wire formats; the `FakeReactor` event
loop is embedded directly from the test module's source.
-/

namespace Landscape

/-- Split a character list on a separator character (the pieces between the
separators, in order). -/
def splitOnChar (c : Char) : List Char → List (List Char)
  | [] => [[]]
  | ch :: rest =>
    if ch = c then [] :: splitOnChar c rest
    else
      match splitOnChar c rest with
      | [] => [[ch]]
      | w :: ws => (ch :: w) :: ws

def isSpaceChar (c : Char) : Bool :=
  c = ' ' || c = '\t' || c = '\n' || c = '\r'

/-- Strip leading and trailing whitespace. -/
def trimChars (cs : List Char) : List Char :=
  ((cs.dropWhile isSpaceChar).reverse.dropWhile isSpaceChar).reverse

/-- The numeric value of a digit string. -/
def digitsToNat (cs : List Char) : Nat :=
  cs.foldl (fun acc c => acc * 10 + (c.toNat - 48)) 0

/-! ## Versioning (`landscape.lib.versioning`) -/

namespace Versioning

/-- Modelled from the spec and the versioning tests: a dotted version string
such as `"3.1"` is parsed into its numeric components.  (The implementation
module `landscape/lib/versioning.py` is absent from the snapshot; only its
tests are present.) -/
def parseVersion (s : String) : List Nat :=
  (splitOnChar '.' s.data).map digitsToNat

/-- Comparison of numeric component lists, most significant component first;
a missing trailing component counts as zero (so `3.1` and `3.1.0` are equal). -/
def cmpVer : List Nat → List Nat → Ordering
  | [], [] => Ordering.eq
  | [], ys => if ys.all (fun y => y == 0) then Ordering.eq else Ordering.lt
  | xs, [] => if xs.all (fun x => x == 0) then Ordering.eq else Ordering.gt
  | x :: xs, y :: ys =>
    if x < y then Ordering.lt
    else if y < x then Ordering.gt
    else cmpVer xs ys

/-- Modelled from the spec: `is_version_higher(a, b)` holds when version `a`
compares greater than **or equal to** version `b` (the comparison is
non-strict, as documented by the `test_equal` test). -/
def is_version_higher (a b : String) : Bool :=
  match cmpVer (parseVersion a) (parseVersion b) with
  | Ordering.lt => false
  | _ => true

theorem cmpVer_self (v : List Nat) : cmpVer v v = Ordering.eq := by
  induction v with
  | nil => rfl
  | cons x xs ih => simp [cmpVer, ih]

end Versioning

/-! ## Data model of the sysinfo orchestrator -/

namespace Sysinfo

/-- The error values exercised by the orchestration paths. -/
inductive SysErr where
  | zeroDivisionError : SysErr
  | unknownPluginError : String → SysErr
  deriving DecidableEq, Repr

/-- How a plugin's `run` operation behaves: it may complete synchronously,
raise synchronously, or return a still-pending completion future whose
eventual outcome is success (`none`) or rejection with an error. -/
inductive RunBehavior where
  | sync : RunBehavior
  | syncRaise : SysErr → RunBehavior
  | pendingF : Option SysErr → RunBehavior
  deriving DecidableEq, Repr

/-- A plugin: its name, the headers/notes/footnotes it contributes on a
successful run, and the shape of its `run` operation. -/
structure Plugin where
  name : String
  headers : List (String × String)
  notes : List String
  footnotes : List String
  behavior : RunBehavior
  deriving DecidableEq, Repr

/-- The plugin registry: the activated plugins in activation order, and one
contribution slot per plugin (`true` once that plugin's output has been
aggregated).  Aggregated output is read out in activation order. -/
structure Registry where
  plugins : List Plugin
  contributed : List Bool
  deriving DecidableEq, Repr

/-- Collect the `f`-contributions of the plugins whose slot is filled, in
activation order. -/
def collect (f : Plugin → List α) : List Plugin → List Bool → List α
  | [], _ => []
  | _ :: _, [] => []
  | p :: ps, b :: bs => (if b then f p else []) ++ collect f ps bs

def Registry.get_headers (r : Registry) : List (String × String) :=
  collect Plugin.headers r.plugins r.contributed

def Registry.get_notes (r : Registry) : List String :=
  collect Plugin.notes r.plugins r.contributed

def Registry.get_footnotes (r : Registry) : List String :=
  collect Plugin.footnotes r.plugins r.contributed

/-- The concatenation of every plugin's `f`-contribution, in activation
order. -/
def concatContrib (f : Plugin → List α) : List Plugin → List α
  | [] => []
  | p :: ps => f p ++ concatContrib f ps

theorem collect_replicate_true (f : Plugin → List α) (ps : List Plugin) :
    collect f ps (List.replicate ps.length true) = concatContrib f ps := by
  induction ps with
  | nil => rfl
  | cons p ps ih => simp [collect, concatContrib, List.replicate, ih]

/-! ## The event loop

`FakeReactor` is embedded directly from
`src/landscape/sysinfo/tests/test_deployment.py`: `callWhenRunning` appends
to `queued_calls`, `run` sets `running`, `callLater` appends
`(seconds, callable, args, kwargs)` to `scheduled_calls`, and `stop` clears
`running`.  Queued callables and scheduled callables are defunctionalized
(`QTask`/`Task`); every scheduled call in this system passes empty `args`
and `kwargs`, so a scheduled entry `(seconds, callable, (), {})` is modelled
as the pair `(seconds, task)`.  `stopCount` additionally counts the
invocations of the `stop` primitive, for stating the stop discipline. -/

/-- The callables handed to `callWhenRunning`: the orchestrator queues
exactly one, its run-when-started callback. -/
inductive QTask where
  | start : QTask
  deriving DecidableEq, Repr

/-- The callables handed to `callLater`: the orchestrator schedules only the
loop's `stop` primitive. -/
inductive Task where
  | stop : Task
  deriving DecidableEq, Repr

structure Reactor where
  queued_calls : List QTask
  scheduled_calls : List (Nat × Task)
  running : Bool
  stopCount : Nat
  deriving DecidableEq, Repr

def Reactor.initial : Reactor :=
  { queued_calls := [], scheduled_calls := [], running := false, stopCount := 0 }

def Reactor.callWhenRunning (r : Reactor) (t : QTask) : Reactor :=
  { r with queued_calls := r.queued_calls ++ [t] }

def Reactor.run (r : Reactor) : Reactor :=
  { r with running := true }

def Reactor.callLater (r : Reactor) (seconds : Nat) (t : Task) : Reactor :=
  { r with scheduled_calls := r.scheduled_calls ++ [(seconds, t)] }

def Reactor.stop (r : Reactor) : Reactor :=
  { r with running := false, stopCount := r.stopCount + 1 }

/-! ## Orchestration state -/

/-- The observable events of one orchestrator run, in the order they
occur. -/
inductive Event where
  | loopStarted : Event
  | callbackFired : Event
  | pluginInvoked : String → Event
  | outputWritten : String → Event
  | errorLogged : SysErr → Event
  | stopScheduled : Event
  | stopInvoked : Event
  | resultResolved : Event
  | resultRejected : SysErr → Event
  deriving DecidableEq, Repr

/-- The aggregate completion future of `Registry.run`. -/
inductive Agg where
  | notStarted : Agg
  | waiting : List Nat → Agg
  | resolvedOk : Agg
  | resolvedErr : SysErr → Agg
  deriving DecidableEq, Repr

def aggResolved : Agg → Bool
  | Agg.resolvedOk => true
  | Agg.resolvedErr _ => true
  | _ => false

def aggWaiting : Agg → Bool
  | Agg.waiting _ => true
  | _ => false

/-- The whole orchestration state: the event loop, the registry, what has
been written to standard output, the orchestrator's overall result future
(`none` while pending), the aggregate future, and the event trace. -/
structure OrchState where
  reactor : Reactor
  registry : Registry
  stdout : String
  result : Option (Except SysErr Unit)
  agg : Agg
  events : List Event
  deriving Repr

/-! ## Output formatting

Modelled from the spec's output-stream interface: header lines are
`"  <name>: <value>"`, note lines are `"  => <note>"`, footnote lines are
`"  <footnote>"`, the non-empty sections are separated by a blank line, and
the block is printed with a final newline. -/

def formatSysinfo (headers : List (String × String)) (notes footnotes : List String) :
    String :=
  let headerLines := headers.map (fun h => "  " ++ h.1 ++ ": " ++ h.2)
  let noteLines := notes.map (fun n => "  => " ++ n)
  let footLines := footnotes.map (fun f => "  " ++ f)
  let sections :=
    ([headerLines, noteLines, footLines].filter (fun sec => !sec.isEmpty)).map
      (String.intercalate "\n")
  String.intercalate "\n\n" sections

/-- The text that one successful run writes to standard output (the
formatted block plus the newline appended by printing it). -/
def formatted (reg : Registry) : String :=
  formatSysinfo reg.get_headers reg.get_notes reg.get_footnotes ++ "\n"

/-! ## Running the plugins

Modelled from the spec: `Registry.run()` invokes every plugin's `run`
operation in activation order; a synchronous completion fills the plugin's
contribution slot at once, a synchronous exception is recorded (the first
observed failure determines the aggregate failure), and a pending future is
remembered by its activation index. -/

structure RunOut where
  contrib : List Bool
  pend : List Nat
  firstErr : Option SysErr
  evs : List Event

def runPlugins : List Plugin → Nat → RunOut
  | [], _ => ⟨[], [], none, []⟩
  | p :: ps, i =>
    let r := runPlugins ps (i + 1)
    match p.behavior with
    | RunBehavior.sync =>
        ⟨true :: r.contrib, r.pend, r.firstErr, Event.pluginInvoked p.name :: r.evs⟩
    | RunBehavior.syncRaise e =>
        ⟨false :: r.contrib, r.pend, some e, Event.pluginInvoked p.name :: r.evs⟩
    | RunBehavior.pendingF _ =>
        ⟨false :: r.contrib, i :: r.pend, r.firstErr, Event.pluginInvoked p.name :: r.evs⟩

/-! ## The orchestrator's state machine

Modelled from the spec (§4.3): on `Completed` the formatted block is written
exactly once and a zero-delay stop task is scheduled; on `Failed` the error
is logged, no output is written, and the same zero-delay stop task is
scheduled.  The loop's `stop` primitive is never called from the callback
itself; the scheduled task executes later, and only after the loop has
stopped is the overall result future resolved or rejected. -/

def finalizeSuccess (st : OrchState) : OrchState :=
  { st with
    stdout := st.stdout ++ formatted st.registry,
    reactor := st.reactor.callLater 0 Task.stop,
    agg := Agg.resolvedOk,
    events := st.events ++ [Event.outputWritten (formatted st.registry), Event.stopScheduled] }

def finalizeFailure (e : SysErr) (st : OrchState) : OrchState :=
  { st with
    reactor := st.reactor.callLater 0 Task.stop,
    agg := Agg.resolvedErr e,
    events := st.events ++ [Event.errorLogged e, Event.stopScheduled] }

/-- The state right after `Registry.run()` has driven every plugin once:
the synchronous contributions are aggregated and the trace records the
callback and each plugin invocation. -/
def afterPlugins (st : OrchState) (r : RunOut) : OrchState :=
  { st with
    registry := { st.registry with contributed := r.contrib },
    events := st.events ++ Event.callbackFired :: r.evs }

/-- Dispatch on the outcome of `Registry.run()`: a synchronous failure takes
the failure path now; with no failure and no pending future the success
path runs now; otherwise the aggregate future stays open on the pending
indices. -/
def dispatchRun (r : RunOut) (st1 : OrchState) : OrchState :=
  match r.firstErr with
  | some e => finalizeFailure e st1
  | none =>
    match r.pend with
    | [] => finalizeSuccess st1
    | j :: js => { st1 with agg := Agg.waiting (j :: js) }

/-- The run-when-started callback: calls `Registry.run()`, which drives every
plugin, then dispatches on the outcome. -/
def fireCallback (st : OrchState) : OrchState :=
  dispatchRun (runPlugins st.registry.plugins 0)
    (afterPlugins st (runPlugins st.registry.plugins 0))

/-- The callback boundary: when `Registry.run()` itself raises synchronously
(`sysinfoRaise = some e`, as in the test that replaces `sysinfo.run` with
`lambda: 1 / 0`), the exception is caught at the callback boundary and
treated as a run failure. -/
def fireCallbackWith (sysinfoRaise : Option SysErr) (st : OrchState) : OrchState :=
  match sysinfoRaise with
  | some e => finalizeFailure e { st with events := st.events ++ [Event.callbackFired] }
  | none => fireCallback st

def runQTask (sysinfoRaise : Option SysErr) : QTask → OrchState → OrchState
  | QTask.start, st => fireCallbackWith sysinfoRaise st

/-- `for x in reactor.queued_calls: x()` — fire the queued run-when-started
callbacks (the orchestrator queued exactly one). -/
def runQueuedCalls (sysinfoRaise : Option SysErr) (st : OrchState) : OrchState :=
  st.reactor.queued_calls.foldl (fun s t => runQTask sysinfoRaise t s) st

/-- After one pending future resolved successfully: if it was the last open
future the aggregate resolves and the success path runs now, otherwise the
aggregate stays open on the remaining indices. -/
def finishResolve (st2 : OrchState) (pend2 : List Nat) : OrchState :=
  match pend2 with
  | [] => finalizeSuccess st2
  | _ => st2

/-- Successful resolution of plugin `i`'s pending future: its contribution
slot is filled and it leaves the pending set. -/
def resolveSuccessStep (st : OrchState) (i : Nat) (pend : List Nat) : OrchState :=
  finishResolve
    { st with
      registry := { st.registry with contributed := st.registry.contributed.set i true },
      agg := Agg.waiting (pend.filter (fun j => j != i)) }
    (pend.filter (fun j => j != i))

/-- Resolution of one plugin's pending completion future (activation index
`i`): on success the plugin's contribution slot is filled; when the last
pending future resolves the success path runs; an asynchronous rejection
takes the failure path at once.  A future that is not pending resolves
nothing (futures resolve at most once). -/
def resolveFuture (st : OrchState) (i : Nat) : OrchState :=
  match st.agg with
  | Agg.waiting pend =>
    if i ∈ pend then
      match st.registry.plugins[i]? with
      | some p =>
        match p.behavior with
        | RunBehavior.pendingF none => resolveSuccessStep st i pend
        | RunBehavior.pendingF (some e) => finalizeFailure e st
        | _ => st
      | none => st
    else st
  | _ => st

/-- Execution of one scheduled task: the zero-delay stop task invokes the
loop's `stop` primitive. -/
def execTask : Task → OrchState → OrchState
  | Task.stop, st =>
    { st with reactor := st.reactor.stop, events := st.events ++ [Event.stopInvoked] }

/-- The event loop executes its scheduled calls. -/
def runScheduled (st : OrchState) : OrchState :=
  st.reactor.scheduled_calls.foldl (fun s c => execTask c.2 s) st

/-- After the loop has stopped, the orchestrator's overall result future is
resolved on success or rejected with the original error on failure. -/
def deliverResult (st : OrchState) : OrchState :=
  match st.agg with
  | Agg.resolvedOk =>
    { st with result := some (Except.ok ()), events := st.events ++ [Event.resultResolved] }
  | Agg.resolvedErr e =>
    { st with result := some (Except.error e), events := st.events ++ [Event.resultRejected e] }
  | _ => st

/-! ## The orchestrator pipeline -/

/-- Idle → LoopStarting: the orchestrator builds the registry, registers its
run-when-started callback with the event loop, and starts the loop. -/
def setupRun (plugins : List Plugin) : OrchState :=
  { reactor := (Reactor.initial.callWhenRunning QTask.start).run,
    registry := { plugins := plugins, contributed := plugins.map (fun _ => false) },
    stdout := "",
    result := none,
    agg := Agg.notStarted,
    events := [Event.loopStarted] }

/-- The state after the loop has started, the queued callback has fired and
the given pending futures (by activation index) have resolved, in that
order — before any scheduled task executes. -/
def runUntilResolved (plugins : List Plugin) (sysinfoRaise : Option SysErr)
    (order : List Nat) : OrchState :=
  order.foldl resolveFuture (runQueuedCalls sysinfoRaise (setupRun plugins))

/-- One whole orchestrator run: setup, callback, future resolutions in the
given completion order, execution of the scheduled stop task, delivery of
the overall result. -/
def runSysinfo (plugins : List Plugin) (sysinfoRaise : Option SysErr)
    (order : List Nat) : OrchState :=
  deliverResult (runScheduled (runUntilResolved plugins sysinfoRaise order))

/-! ## Plugin activation (`SysInfoConfiguration.get_plugins`) -/

/-- Modelled from the spec: identifiers are resolved to plugin instances in
the given order; an identifier with no known constructor fails with
`UnknownPluginError`, before the event loop is ever started. -/
def activatePlugins : List String → List (String × Plugin) → Except SysErr (List Plugin)
  | [], _ => Except.ok []
  | n :: rest, available =>
    match available.lookup n with
    | none => Except.error (SysErr.unknownPluginError n)
    | some p =>
      match activatePlugins rest available with
      | Except.error e => Except.error e
      | Except.ok ps => Except.ok (p :: ps)

/-- The first activation identifier with no known constructor, if any. -/
def firstUnknown (ids : List String) (available : List (String × Plugin)) :
    Option String :=
  ids.find? (fun n => (available.lookup n).isNone)

/-- Modelled from the spec: a comma-separated identifier list is split and
each name stripped of surrounding whitespace. -/
def splitNames (s : String) : List String :=
  (splitOnChar ',' s.data).map (fun cs => String.mk (trimChars cs))

/-- Modelled from the spec and the configuration tests: the activated
identifiers are the included ones (all available plugins when no include
list is given) minus the excluded ones, in include order. -/
def selectedNames (include? exclude? : Option String) (allPlugins : List String) :
    List String :=
  let inc := match include? with
    | none => allPlugins
    | some s => splitNames s
  let exc := match exclude? with
    | none => []
    | some s => splitNames s
  inc.filter (fun n => !exc.contains n)

def get_plugins (include? exclude? : Option String) (allPlugins : List String)
    (available : List (String × Plugin)) : Except SysErr (List Plugin) :=
  activatePlugins (selectedNames include? exclude? allPlugins) available

/-- The whole entry point: activation happens first; if it fails, the event
loop is never started and the orchestration state machine is never
entered. -/
def runTop (ids : List String) (available : List (String × Plugin))
    (sysinfoRaise : Option SysErr) (order : List Nat) : Except SysErr OrchState :=
  match activatePlugins ids available with
  | Except.error e => Except.error e
  | Except.ok ps => Except.ok (runSysinfo ps sysinfoRaise order)

/-! ## Concrete test fixtures -/

/-- The `TestPlugin` of the test suite: contributes one header, one note and
one footnote, completing synchronously. -/
def testPlugin : Plugin :=
  { name := "TestPlugin",
    headers := [("Test header", "Test value")],
    notes := ["Test note"],
    footnotes := ["Test footnote"],
    behavior := RunBehavior.sync }

/-- The `TestPlugin` variant whose `run` returns a still-pending completion
future that later resolves successfully. -/
def testPluginPending : Plugin :=
  { testPlugin with behavior := RunBehavior.pendingF none }

/-- A named plugin instance with no contributions, used as the image of a
plugin constructor table. -/
def mkNamed (n : String) : Plugin :=
  { name := n, headers := [], notes := [], footnotes := [],
    behavior := RunBehavior.sync }

/-- Modelled from the spec: the full available-plugin identifier set of the
sysinfo configuration (the `Load` plugin among them, as in the tests). -/
def ALL_PLUGINS : List String :=
  ["Load", "Disk", "Memory", "Temperature", "Processes", "LoggedInUsers",
   "LandscapeLink", "Network"]

instance {ε α : Type} [DecidableEq ε] [DecidableEq α] : DecidableEq (Except ε α)
  | Except.error e, Except.error f =>
    if h : e = f then isTrue (h ▸ rfl) else isFalse (fun hh => h (Except.error.inj hh))
  | Except.error _, Except.ok _ => isFalse (fun hh => Except.noConfusion hh)
  | Except.ok _, Except.error _ => isFalse (fun hh => Except.noConfusion hh)
  | Except.ok x, Except.ok y =>
    if h : x = y then isTrue (h ▸ rfl) else isFalse (fun hh => h (Except.ok.inj hh))

/-! ## Event classifiers and trace scanners -/

def isStopInvoked : Event → Bool
  | Event.stopInvoked => true
  | _ => false

def isStopSched : Event → Bool
  | Event.stopScheduled => true
  | _ => false

def isOutputEv : Event → Bool
  | Event.outputWritten _ => true
  | _ => false

def isResultEv : Event → Bool
  | Event.resultResolved => true
  | Event.resultRejected _ => true
  | _ => false

def isPluginEv : Event → Bool
  | Event.pluginInvoked _ => true
  | _ => false

/-- An event is *clean* when it is none of the events whose counts the stop
discipline constrains. -/
def cleanEv (e : Event) : Bool :=
  !(isStopInvoked e || isStopSched e || isOutputEv e || isResultEv e)

/-- No `stopInvoked` occurs strictly before the first `stopScheduled`: the
stop primitive is reached only through the scheduled task. -/
def stopAfterSched : List Event → Bool
  | [] => true
  | Event.stopScheduled :: _ => true
  | Event.stopInvoked :: _ => false
  | _ :: rest => stopAfterSched rest

/-- No `resultRejected` occurs strictly before the first `stopInvoked`: the
failure is surfaced only after the loop has stopped. -/
def rejectionAfterStop : List Event → Bool
  | [] => true
  | Event.stopInvoked :: _ => true
  | Event.resultRejected _ :: _ => false
  | _ :: rest => rejectionAfterStop rest

/-- No `pluginInvoked` occurs strictly before the first `loopStarted`:
plugins run only once the loop is running. -/
def noPluginBeforeStart : List Event → Bool
  | [] => true
  | Event.loopStarted :: _ => true
  | Event.pluginInvoked _ :: _ => false
  | _ :: rest => noPluginBeforeStart rest

theorem stopAfterSched_cons (e : Event) (l : List Event)
    (hne : e ≠ Event.stopScheduled) (hsi : isStopInvoked e = false) :
    stopAfterSched (e :: l) = stopAfterSched l := by
  cases e <;> simp_all [stopAfterSched, isStopInvoked]

theorem stopAfterSched_append (evs rest : List Event)
    (h1 : ∀ e ∈ evs, isStopInvoked e = false)
    (h2 : Event.stopScheduled ∈ evs) :
    stopAfterSched (evs ++ rest) = true := by
  induction evs with
  | nil => cases h2
  | cons e tl ih =>
    by_cases hne : e = Event.stopScheduled
    · subst hne; rfl
    · have h2' : Event.stopScheduled ∈ tl := by
        rcases List.mem_cons.mp h2 with h | h
        · exact absurd h.symm hne
        · exact h
      rw [List.cons_append,
        stopAfterSched_cons e (tl ++ rest) hne (h1 e (List.mem_cons_self _ _))]
      exact ih (fun x hx => h1 x (List.mem_cons_of_mem _ hx)) h2'

theorem rejectionAfterStop_cons (e : Event) (l : List Event)
    (hne : e ≠ Event.stopInvoked) (hre : isResultEv e = false) :
    rejectionAfterStop (e :: l) = rejectionAfterStop l := by
  cases e <;> simp_all [rejectionAfterStop, isResultEv]

theorem rejectionAfterStop_append (evs rest : List Event)
    (h1 : ∀ e ∈ evs, isResultEv e = false) :
    rejectionAfterStop (evs ++ Event.stopInvoked :: rest) = true := by
  induction evs with
  | nil => rfl
  | cons e tl ih =>
    by_cases hne : e = Event.stopInvoked
    · subst hne; rfl
    · rw [List.cons_append,
        rejectionAfterStop_cons e (tl ++ Event.stopInvoked :: rest) hne
          (h1 e (List.mem_cons_self _ _))]
      exact ih (fun x hx => h1 x (List.mem_cons_of_mem _ hx))

/-! ## Invariants of the orchestration pipeline -/

/-- While the aggregate future is open, the contribution slots mirror the
pending set: a pending index points at a plugin with a pending future and an
unfilled slot; every other plugin's slot is already filled. -/
def WaitInv (reg : Registry) (pend : List Nat) : Prop :=
  reg.contributed.length = reg.plugins.length ∧
  (∀ j ∈ pend, j < reg.plugins.length ∧
    ∃ p o, reg.plugins[j]? = some p ∧ p.behavior = RunBehavior.pendingF o) ∧
  (∀ k, k < reg.plugins.length →
    (k ∈ pend → reg.contributed[k]? = some false) ∧
    (k ∉ pend → reg.contributed[k]? = some true))

/-- Facts that hold from the end of setup until the scheduled stop task
executes: the stop primitive has never been invoked, the overall result
future is still open, the loop is running, and the trace starts with the
loop-started signal. -/
structure PreSt (st : OrchState) : Prop where
  stopCount0 : st.reactor.stopCount = 0
  noStopInvEv : st.events.countP isStopInvoked = 0
  result_none : st.result = none
  noResultEv : st.events.countP isResultEv = 0
  running_true : st.reactor.running = true
  head_started : ∃ tl, st.events = Event.loopStarted :: tl

/-- Facts that hold before the terminal transition has run: no stop task
scheduled yet and no output written yet. -/
structure CoreSt (st : OrchState) : Prop where
  pre : PreSt st
  sched_nil : st.reactor.scheduled_calls = []
  noSchedEv : st.events.countP isStopSched = 0
  out_nil : st.stdout = ""
  noOutEv : st.events.countP isOutputEv = 0

/-- The callback has fired and the aggregate future is still open. -/
structure WaitingSt (st : OrchState) : Prop where
  core : CoreSt st
  wait : ∃ pend, st.agg = Agg.waiting pend ∧ WaitInv st.registry pend

/-- The failure path has run: stop scheduled exactly once, no output. -/
structure FailedSt (st : OrchState) : Prop where
  pre : PreSt st
  sched_one : st.reactor.scheduled_calls = [(0, Task.stop)]
  schedEv1 : st.events.countP isStopSched = 1
  out_nil : st.stdout = ""
  noOutEv : st.events.countP isOutputEv = 0
  failed : ∃ e, st.agg = Agg.resolvedErr e

/-- The success path has run: stop scheduled exactly once, every plugin's
contribution aggregated, the formatted block written exactly once. -/
structure OkSt (st : OrchState) : Prop where
  pre : PreSt st
  sched_one : st.reactor.scheduled_calls = [(0, Task.stop)]
  schedEv1 : st.events.countP isStopSched = 1
  agg_ok : st.agg = Agg.resolvedOk
  contrib_full : st.registry.contributed = List.replicate st.registry.plugins.length true
  out_eq : st.stdout = formatted st.registry
  outEv1 : st.events.countP isOutputEv = 1

/-- After the callback has fired the orchestration state is in exactly one
of the three phases. -/
def TriSt (st : OrchState) : Prop :=
  WaitingSt st ∨ FailedSt st ∨ OkSt st

/-! ## Characterization of `runPlugins` -/

theorem runPlugins_contrib_length (ps : List Plugin) (i : Nat) :
    (runPlugins ps i).contrib.length = ps.length := by
  induction ps generalizing i with
  | nil => rfl
  | cons p ps ih =>
    cases hb : p.behavior <;> simp [runPlugins, hb, ih]

theorem runPlugins_evs_plugin (ps : List Plugin) (i : Nat) :
    ∀ e ∈ (runPlugins ps i).evs, ∃ n, e = Event.pluginInvoked n := by
  induction ps generalizing i with
  | nil => intro e he; cases he
  | cons p ps ih =>
    intro e he
    cases hb : p.behavior <;> rw [runPlugins] at he <;> simp only [hb] at he <;>
      rcases List.mem_cons.mp he with h | h <;>
      first
        | exact ⟨p.name, h⟩
        | exact ih (i + 1) e h

theorem runPlugins_pend_bounds (ps : List Plugin) (i : Nat) :
    ∀ j ∈ (runPlugins ps i).pend, i ≤ j ∧ j < i + ps.length := by
  induction ps generalizing i with
  | nil => intro j hj; cases hj
  | cons p ps ih =>
    intro j hj
    cases hb : p.behavior <;> rw [runPlugins] at hj <;> simp only [hb] at hj
    · have := ih (i + 1) j hj
      simp only [List.length_cons]; omega
    · have := ih (i + 1) j hj
      simp only [List.length_cons]; omega
    · rcases List.mem_cons.mp hj with h | h
      · subst h; simp only [List.length_cons]; omega
      · have := ih (i + 1) j h
        simp only [List.length_cons]; omega

theorem runPlugins_pend_behavior (ps : List Plugin) (i : Nat) :
    ∀ j ∈ (runPlugins ps i).pend,
      ∃ p o, ps[j - i]? = some p ∧ p.behavior = RunBehavior.pendingF o := by
  induction ps generalizing i with
  | nil => intro j hj; cases hj
  | cons p ps ih =>
    intro j hj
    have tailcase : j ∈ (runPlugins ps (i + 1)).pend →
        ∃ q o, (p :: ps)[j - i]? = some q ∧ q.behavior = RunBehavior.pendingF o := by
      intro h
      have hb := runPlugins_pend_bounds ps (i + 1) j h
      obtain ⟨q, o, hq, ho⟩ := ih (i + 1) j h
      refine ⟨q, o, ?_, ho⟩
      have hji : j - i = (j - (i + 1)) + 1 := by omega
      rw [hji, List.getElem?_cons_succ]
      exact hq
    cases hbv : p.behavior <;> rw [runPlugins] at hj <;> simp only [hbv] at hj
    · exact tailcase hj
    · exact tailcase hj
    · rcases List.mem_cons.mp hj with h | h
      · subst h
        refine ⟨p, _, ?_, hbv⟩
        simp
      · exact tailcase h

theorem runPlugins_contrib_mem (ps : List Plugin) (i : Nat)
    (herr : (runPlugins ps i).firstErr = none) :
    ∀ k, k < ps.length →
      ((i + k) ∈ (runPlugins ps i).pend → (runPlugins ps i).contrib[k]? = some false) ∧
      ((i + k) ∉ (runPlugins ps i).pend → (runPlugins ps i).contrib[k]? = some true) := by
  induction ps generalizing i with
  | nil => intro k hk; cases hk
  | cons p ps ih =>
    intro k hk
    cases hbv : p.behavior <;> rw [runPlugins] at herr ⊢ <;> simp only [hbv] at herr ⊢
    · -- sync
      cases k with
      | zero =>
        constructor
        · intro hmem
          have := runPlugins_pend_bounds ps (i + 1) (i + 0) hmem
          omega
        · intro _; simp
      | succ k =>
        have hks : k < ps.length := by simpa using Nat.lt_of_succ_lt_succ hk
        have hrw : i + (k + 1) = (i + 1) + k := by omega
        have := ih (i + 1) herr k hks
        constructor
        · intro hmem
          rw [List.getElem?_cons_succ]
          exact this.1 (by rw [← hrw]; exact hmem)
        · intro hmem
          rw [List.getElem?_cons_succ]
          exact this.2 (by rw [← hrw]; exact hmem)
    · -- syncRaise: contradicts herr
      cases herr
    · -- pendingF
      cases k with
      | zero =>
        constructor
        · intro _; simp
        · intro hmem
          simp at hmem
      | succ k =>
        have hks : k < ps.length := by simpa using Nat.lt_of_succ_lt_succ hk
        have hrw : i + (k + 1) = (i + 1) + k := by omega
        have := ih (i + 1) herr k hks
        have hne : i + (k + 1) ≠ i := by omega
        constructor
        · intro hmem
          rw [List.getElem?_cons_succ]
          refine this.1 ?_
          rw [← hrw]
          rcases List.mem_cons.mp hmem with h | h
          · exact absurd h hne
          · exact h
        · intro hmem
          rw [List.getElem?_cons_succ]
          refine this.2 ?_
          rw [← hrw]
          intro hc
          exact hmem (List.mem_cons_of_mem _ hc)

/-! ## Transition lemmas -/

theorem countP_eq_zero_of (l : List Event) (p : Event → Bool)
    (h : ∀ e ∈ l, p e = false) : l.countP p = 0 :=
  List.countP_eq_zero.mpr (fun a ha => by simp [h a ha])

theorem finalizeFailure_failedSt (e : SysErr) (st : OrchState) (h : CoreSt st) :
    FailedSt (finalizeFailure e st) := by
  obtain ⟨⟨hsc, hsi, hrn, hre, hru, tl, htl⟩, hs, hse, ho, hoe⟩ := h
  refine ⟨⟨?_, ?_, ?_, ?_, ?_, ?_⟩, ?_, ?_, ?_, ?_, ?_⟩
  · simpa [finalizeFailure, Reactor.callLater] using hsc
  · simp [finalizeFailure, List.countP_append, List.countP_cons, isStopInvoked, hsi]
  · simpa [finalizeFailure] using hrn
  · simp [finalizeFailure, List.countP_append, List.countP_cons, isResultEv, hre]
  · simpa [finalizeFailure, Reactor.callLater] using hru
  · exact ⟨tl ++ [Event.errorLogged e, Event.stopScheduled],
      by simp [finalizeFailure, htl]⟩
  · simp [finalizeFailure, Reactor.callLater, hs]
  · simp [finalizeFailure, List.countP_append, List.countP_cons, isStopSched, hse]
  · simpa [finalizeFailure] using ho
  · simp [finalizeFailure, List.countP_append, List.countP_cons, isOutputEv, hoe]
  · exact ⟨e, rfl⟩

theorem finalizeSuccess_okSt (st : OrchState) (h : CoreSt st)
    (hc : st.registry.contributed = List.replicate st.registry.plugins.length true) :
    OkSt (finalizeSuccess st) := by
  obtain ⟨⟨hsc, hsi, hrn, hre, hru, tl, htl⟩, hs, hse, ho, hoe⟩ := h
  refine ⟨⟨?_, ?_, ?_, ?_, ?_, ?_⟩, ?_, ?_, ?_, ?_, ?_, ?_⟩
  · simpa [finalizeSuccess, Reactor.callLater] using hsc
  · simp [finalizeSuccess, List.countP_append, List.countP_cons, isStopInvoked, hsi]
  · simpa [finalizeSuccess] using hrn
  · simp [finalizeSuccess, List.countP_append, List.countP_cons, isResultEv, hre]
  · simpa [finalizeSuccess, Reactor.callLater] using hru
  · exact ⟨tl ++ [Event.outputWritten (formatted st.registry), Event.stopScheduled],
      by simp [finalizeSuccess, htl]⟩
  · simp [finalizeSuccess, Reactor.callLater, hs]
  · simp [finalizeSuccess, List.countP_append, List.countP_cons, isStopSched, hse]
  · rfl
  · exact hc
  · simp [finalizeSuccess, ho]
  · simp [finalizeSuccess, List.countP_append, List.countP_cons, isOutputEv, hoe]

theorem coreSt_afterPlugins (st : OrchState) (h : CoreSt st) (r : RunOut)
    (hevs : ∀ e ∈ r.evs, ∃ n, e = Event.pluginInvoked n) :
    CoreSt (afterPlugins st r) := by
  obtain ⟨⟨hsc, hsi, hrn, hre, hru, tl, htl⟩, hs, hse, ho, hoe⟩ := h
  have hclean : ∀ (p : Event → Bool), (∀ n, p (Event.pluginInvoked n) = false) →
      p Event.callbackFired = false → st.events.countP p = 0 →
      (st.events ++ Event.callbackFired :: r.evs).countP p = 0 := by
    intro p hp hcb hst
    rw [List.countP_append, List.countP_cons]
    have hr : r.evs.countP p = 0 := countP_eq_zero_of _ _ (by
      intro e he
      obtain ⟨n, hn⟩ := hevs e he
      subst hn
      exact hp n)
    simp [hst, hr, hcb]
  refine ⟨⟨?_, ?_, ?_, ?_, ?_, ?_⟩, ?_, ?_, ?_, ?_⟩
  · exact hsc
  · exact hclean isStopInvoked (fun n => rfl) rfl hsi
  · exact hrn
  · exact hclean isResultEv (fun n => rfl) rfl hre
  · exact hru
  · exact ⟨tl ++ Event.callbackFired :: r.evs, by simp [afterPlugins, htl]⟩
  · exact hs
  · exact hclean isStopSched (fun n => rfl) rfl hse
  · exact ho
  · exact hclean isOutputEv (fun n => rfl) rfl hoe

theorem coreSt_setAgg (st : OrchState) (h : CoreSt st) (a : Agg) :
    CoreSt { st with agg := a } :=
  ⟨⟨h.pre.stopCount0, h.pre.noStopInvEv, h.pre.result_none, h.pre.noResultEv,
    h.pre.running_true, h.pre.head_started⟩,
   h.sched_nil, h.noSchedEv, h.out_nil, h.noOutEv⟩

theorem coreSt_setRegAgg (st : OrchState) (h : CoreSt st) (reg : Registry) (a : Agg) :
    CoreSt { st with registry := reg, agg := a } :=
  ⟨⟨h.pre.stopCount0, h.pre.noStopInvEv, h.pre.result_none, h.pre.noResultEv,
    h.pre.running_true, h.pre.head_started⟩,
   h.sched_nil, h.noSchedEv, h.out_nil, h.noOutEv⟩

theorem eq_replicate_of_all_true (l : List Bool)
    (h : ∀ k, k < l.length → l[k]? = some true) :
    l = List.replicate l.length true := by
  induction l with
  | nil => rfl
  | cons b bs ih =>
    have h0 := h 0 (Nat.succ_pos _)
    rw [List.getElem?_cons_zero] at h0
    have hb : b = true := by injection h0
    have htail : bs = List.replicate bs.length true := by
      refine ih (fun k hk => ?_)
      have := h (k + 1) (by simpa using Nat.succ_lt_succ hk)
      rwa [List.getElem?_cons_succ] at this
    rw [List.length_cons, List.replicate_succ, hb]
    rw [← htail]

theorem fireCallback_triSt (st : OrchState) (h : CoreSt st) :
    TriSt (fireCallback st) := by
  have hevs := runPlugins_evs_plugin st.registry.plugins 0
  have hcore := coreSt_afterPlugins st h (runPlugins st.registry.plugins 0) hevs
  rw [fireCallback, dispatchRun]
  cases herr : (runPlugins st.registry.plugins 0).firstErr with
  | some e =>
    exact Or.inr (Or.inl (finalizeFailure_failedSt e _ hcore))
  | none =>
    cases hpend : (runPlugins st.registry.plugins 0).pend with
    | nil =>
      refine Or.inr (Or.inr (finalizeSuccess_okSt _ hcore ?_))
      have hlen := runPlugins_contrib_length st.registry.plugins 0
      have hall : ∀ k, k < (runPlugins st.registry.plugins 0).contrib.length →
          (runPlugins st.registry.plugins 0).contrib[k]? = some true := by
        intro k hk
        rw [hlen] at hk
        refine (runPlugins_contrib_mem st.registry.plugins 0 herr k hk).2 ?_
        rw [hpend]
        exact List.not_mem_nil _
      have := eq_replicate_of_all_true _ hall
      rw [hlen] at this
      exact this
    | cons j js =>
      dsimp only [afterPlugins]
      refine Or.inl ⟨coreSt_setAgg _ hcore _, ⟨j :: js, rfl, ?_, ?_, ?_⟩⟩
      · exact runPlugins_contrib_length st.registry.plugins 0
      · intro j' hj'
        rw [← hpend] at hj'
        have hb := runPlugins_pend_bounds st.registry.plugins 0 j' hj'
        have hbe := runPlugins_pend_behavior st.registry.plugins 0 j' hj'
        refine ⟨?_, ?_⟩
        · show j' < st.registry.plugins.length
          omega
        · simpa using hbe
      · intro k hk
        have := runPlugins_contrib_mem st.registry.plugins 0 herr k hk
        rw [Nat.zero_add] at this
        rw [hpend] at this
        exact this

theorem waitInv_resolve (reg : Registry) (pend : List Nat) (i : Nat)
    (hw : WaitInv reg pend) (hmem : i ∈ pend) :
    WaitInv { reg with contributed := reg.contributed.set i true }
      (pend.filter (fun j => j != i)) := by
  obtain ⟨hlen, hbeh, hslot⟩ := hw
  have hi : i < reg.plugins.length := (hbeh i hmem).1
  refine ⟨?_, ?_, ?_⟩
  · simp [hlen]
  · intro j hj
    exact hbeh j (List.mem_filter.mp hj).1
  · intro k hk
    constructor
    · intro hkmem
      have hk1 : k ∈ pend := (List.mem_filter.mp hkmem).1
      have hk2 : k ≠ i := bne_iff_ne.mp (List.mem_filter.mp hkmem).2
      show (reg.contributed.set i true)[k]? = some false
      rw [List.getElem?_set_ne (Ne.symm hk2)]
      exact (hslot k hk).1 hk1
    · intro hkmem
      by_cases hki : k = i
      · subst hki
        show (reg.contributed.set k true)[k]? = some true
        rw [List.getElem?_set_self']
        have hik : k < reg.contributed.length := by rw [hlen]; exact hi
        simp [List.getElem?_eq_getElem hik]
      · have hkp : k ∉ pend := by
          intro hc
          exact hkmem (List.mem_filter.mpr ⟨hc, bne_iff_ne.mpr hki⟩)
        show (reg.contributed.set i true)[k]? = some true
        rw [List.getElem?_set_ne (fun hc => hki hc.symm)]
        exact (hslot k hk).2 hkp

theorem finishResolve_triSt (st2 : OrchState) (pend2 : List Nat)
    (hcore : CoreSt st2) (hagg : st2.agg = Agg.waiting pend2)
    (hw : WaitInv st2.registry pend2) :
    TriSt (finishResolve st2 pend2) := by
  cases pend2 with
  | nil =>
    refine Or.inr (Or.inr (finalizeSuccess_okSt st2 hcore ?_))
    obtain ⟨hlen, _, hslot⟩ := hw
    have hall : ∀ k, k < st2.registry.contributed.length →
        st2.registry.contributed[k]? = some true := by
      intro k hk
      rw [hlen] at hk
      exact (hslot k hk).2 (List.not_mem_nil _)
    have := eq_replicate_of_all_true _ hall
    rw [hlen] at this
    exact this
  | cons j js =>
    exact Or.inl ⟨hcore, ⟨j :: js, hagg, hw⟩⟩

theorem resolveFuture_not_waiting (st : OrchState) (i : Nat)
    (h : ∀ pend, st.agg ≠ Agg.waiting pend) : resolveFuture st i = st := by
  rw [resolveFuture]
  cases hagg : st.agg with
  | waiting pend => exact absurd hagg (h pend)
  | notStarted => rfl
  | resolvedOk => rfl
  | resolvedErr e => rfl

theorem resolveFuture_triSt (st : OrchState) (i : Nat) (h : TriSt st) :
    TriSt (resolveFuture st i) := by
  rcases h with hw | hf | ho
  · obtain ⟨hcore, pend, hagg, hwinv⟩ := hw
    by_cases hmem : i ∈ pend
    · obtain ⟨hi, p, o, hp, hpo⟩ := hwinv.2.1 i hmem
      cases o with
      | none =>
        have heq : resolveFuture st i = resolveSuccessStep st i pend := by
          rw [resolveFuture, hagg]
          simp only [if_pos hmem, hp, hpo]
        rw [heq, resolveSuccessStep]
        exact finishResolve_triSt _ _ (coreSt_setRegAgg st hcore _ _) rfl
          (waitInv_resolve st.registry pend i hwinv hmem)
      | some e =>
        have heq : resolveFuture st i = finalizeFailure e st := by
          rw [resolveFuture, hagg]
          simp only [if_pos hmem, hp, hpo]
        rw [heq]
        exact Or.inr (Or.inl (finalizeFailure_failedSt e st hcore))
    · have heq : resolveFuture st i = st := by
        rw [resolveFuture, hagg]
        simp only [if_neg hmem]
      rw [heq]
      exact Or.inl ⟨hcore, pend, hagg, hwinv⟩
  · obtain ⟨e, hagg⟩ := hf.failed
    rw [resolveFuture_not_waiting st i (fun pend hc => by rw [hagg] at hc; cases hc)]
    exact Or.inr (Or.inl hf)
  · have hagg := ho.agg_ok
    rw [resolveFuture_not_waiting st i (fun pend hc => by rw [hagg] at hc; cases hc)]
    exact Or.inr (Or.inr ho)

theorem coreSt_setup (plugins : List Plugin) : CoreSt (setupRun plugins) :=
  ⟨⟨rfl, rfl, rfl, rfl, rfl, ⟨[], rfl⟩⟩, rfl, rfl, rfl, rfl⟩

theorem triSt_runQueued (plugins : List Plugin) (ov : Option SysErr) :
    TriSt (runQueuedCalls ov (setupRun plugins)) := by
  have hq : runQueuedCalls ov (setupRun plugins) = fireCallbackWith ov (setupRun plugins) :=
    rfl
  rw [hq]
  cases ov with
  | none => exact fireCallback_triSt _ (coreSt_setup plugins)
  | some e =>
    refine Or.inr (Or.inl (finalizeFailure_failedSt e _ ?_))
    exact ⟨⟨rfl, rfl, rfl, rfl, rfl, ⟨[Event.callbackFired], rfl⟩⟩, rfl, rfl, rfl, rfl⟩

theorem triSt_fold (order : List Nat) (st : OrchState) (h : TriSt st) :
    TriSt (order.foldl resolveFuture st) := by
  induction order generalizing st with
  | nil => exact h
  | cons i rest ih => exact ih _ (resolveFuture_triSt st i h)

theorem triSt_runUntilResolved (plugins : List Plugin) (ov : Option SysErr)
    (order : List Nat) : TriSt (runUntilResolved plugins ov order) :=
  triSt_fold order _ (triSt_runQueued plugins ov)

/-! ## Projection preservation through the closing phases -/

theorem foldl_exec_proj (l : List (Nat × Task)) (st : OrchState) :
    (l.foldl (fun s c => execTask c.2 s) st).agg = st.agg ∧
    (l.foldl (fun s c => execTask c.2 s) st).registry = st.registry ∧
    (l.foldl (fun s c => execTask c.2 s) st).stdout = st.stdout ∧
    (l.foldl (fun s c => execTask c.2 s) st).result = st.result ∧
    (l.foldl (fun s c => execTask c.2 s) st).reactor.scheduled_calls
      = st.reactor.scheduled_calls := by
  induction l generalizing st with
  | nil => exact ⟨rfl, rfl, rfl, rfl, rfl⟩
  | cons c rest ih =>
    obtain ⟨n, t⟩ := c
    cases t
    rw [List.foldl_cons]
    exact ih (execTask Task.stop st)

theorem deliverResult_proj (st : OrchState) :
    (deliverResult st).agg = st.agg ∧ (deliverResult st).registry = st.registry ∧
    (deliverResult st).stdout = st.stdout ∧ (deliverResult st).reactor = st.reactor := by
  rw [deliverResult]
  cases hagg : st.agg with
  | notStarted => exact ⟨hagg, rfl, rfl, rfl⟩
  | waiting pend => exact ⟨hagg, rfl, rfl, rfl⟩
  | resolvedOk => exact ⟨rfl, rfl, rfl, rfl⟩
  | resolvedErr e => exact ⟨rfl, rfl, rfl, rfl⟩

theorem finishResolve_registry_plugins (st2 : OrchState) (pend2 : List Nat) :
    (finishResolve st2 pend2).registry.plugins = st2.registry.plugins := by
  cases pend2 with
  | nil => rfl
  | cons a l => rfl

theorem resolveFuture_plugins (st : OrchState) (i : Nat) :
    (resolveFuture st i).registry.plugins = st.registry.plugins := by
  rw [resolveFuture]
  cases hagg : st.agg with
  | notStarted => rfl
  | resolvedOk => rfl
  | resolvedErr e => rfl
  | waiting pend =>
    dsimp only
    by_cases hmem : i ∈ pend
    · rw [if_pos hmem]
      cases hp : st.registry.plugins[i]? with
      | none => rfl
      | some p =>
        dsimp only
        cases hb : p.behavior with
        | sync => rfl
        | syncRaise e => rfl
        | pendingF o =>
          cases o with
          | some e => rfl
          | none =>
            show (resolveSuccessStep st i pend).registry.plugins = st.registry.plugins
            rw [resolveSuccessStep, finishResolve_registry_plugins]
    · rw [if_neg hmem]

theorem fireCallbackWith_plugins (ov : Option SysErr) (st : OrchState) :
    (fireCallbackWith ov st).registry.plugins = st.registry.plugins := by
  cases ov with
  | some e => rfl
  | none =>
    rw [fireCallbackWith, fireCallback, dispatchRun]
    cases herr : (runPlugins st.registry.plugins 0).firstErr with
    | some e => rfl
    | none =>
      cases hpend : (runPlugins st.registry.plugins 0).pend with
      | nil => rfl
      | cons j js => rfl

theorem foldl_resolve_plugins (order : List Nat) (st : OrchState) :
    (order.foldl resolveFuture st).registry.plugins = st.registry.plugins := by
  induction order generalizing st with
  | nil => rfl
  | cons i rest ih =>
    rw [List.foldl_cons, ih, resolveFuture_plugins]

theorem runUntilResolved_plugins (plugins : List Plugin) (ov : Option SysErr)
    (order : List Nat) :
    (runUntilResolved plugins ov order).registry.plugins = plugins := by
  rw [runUntilResolved, foldl_resolve_plugins]
  have hq : runQueuedCalls ov (setupRun plugins) = fireCallbackWith ov (setupRun plugins) :=
    rfl
  rw [hq, fireCallbackWith_plugins]
  rfl

/-! ## Characterization of the final state -/

theorem stopSched_mem_of_countP (evs : List Event) (h : evs.countP isStopSched = 1) :
    Event.stopScheduled ∈ evs := by
  have hpos : 0 < evs.countP isStopSched := by omega
  obtain ⟨a, ha, hpa⟩ := List.countP_pos_iff.mp hpos
  cases a <;> first | exact ha | simp [isStopSched] at hpa

theorem no_ev_of_countP_zero (evs : List Event) (p : Event → Bool)
    (h : evs.countP p = 0) : ∀ e ∈ evs, p e = false := by
  intro e he
  have := List.countP_eq_zero.mp h e he
  simpa using this

/-- The facts about the final state of a failed run. -/
structure FailedFinal (fin : OrchState) (e : SysErr) : Prop where
  result_err : fin.result = some (Except.error e)
  stopCount1 : fin.reactor.stopCount = 1
  not_running : fin.reactor.running = false
  sched_one : fin.reactor.scheduled_calls = [(0, Task.stop)]
  out_nil : fin.stdout = ""
  noOutEv : fin.events.countP isOutputEv = 0
  stopInv1 : fin.events.countP isStopInvoked = 1
  schedEv1 : fin.events.countP isStopSched = 1
  stop_disc : stopAfterSched fin.events = true
  rej_after : rejectionAfterStop fin.events = true
  head_started : ∃ tl, fin.events = Event.loopStarted :: tl
  agg_err : fin.agg = Agg.resolvedErr e

/-- The facts about the final state of a successful run. -/
structure OkFinal (fin : OrchState) : Prop where
  result_ok : fin.result = some (Except.ok ())
  stopCount1 : fin.reactor.stopCount = 1
  not_running : fin.reactor.running = false
  sched_one : fin.reactor.scheduled_calls = [(0, Task.stop)]
  out_eq : fin.stdout = formatted fin.registry
  outEv1 : fin.events.countP isOutputEv = 1
  stopInv1 : fin.events.countP isStopInvoked = 1
  schedEv1 : fin.events.countP isStopSched = 1
  stop_disc : stopAfterSched fin.events = true
  head_started : ∃ tl, fin.events = Event.loopStarted :: tl
  contrib_full : fin.registry.contributed = List.replicate fin.registry.plugins.length true
  agg_ok : fin.agg = Agg.resolvedOk

theorem final_failed_spec (st : OrchState) (hf : FailedSt st) (e : SysErr)
    (hagg : st.agg = Agg.resolvedErr e) :
    FailedFinal (deliverResult (runScheduled st)) e := by
  have hrs : runScheduled st = execTask Task.stop st := by
    rw [runScheduled, hf.sched_one]
    rfl
  have hagg1 : (execTask Task.stop st).agg = Agg.resolvedErr e := hagg
  have hdel : deliverResult (execTask Task.stop st) =
      { reactor := (execTask Task.stop st).reactor,
        registry := (execTask Task.stop st).registry,
        stdout := (execTask Task.stop st).stdout,
        result := some (Except.error e),
        agg := Agg.resolvedErr e,
        events := (execTask Task.stop st).events ++ [Event.resultRejected e] } := by
    rw [deliverResult, hagg1]
  have hev : (deliverResult (runScheduled st)).events
      = st.events ++ [Event.stopInvoked] ++ [Event.resultRejected e] := by
    rw [hrs, hdel]
    rfl
  obtain ⟨tl, htl⟩ := hf.pre.head_started
  refine ⟨?_, ?_, ?_, ?_, ?_, ?_, ?_, ?_, ?_, ?_, ?_, ?_⟩
  · rw [hrs, hdel]
  · rw [hrs, hdel]
    show st.reactor.stopCount + 1 = 1
    rw [hf.pre.stopCount0]
  · rw [hrs, hdel]
    rfl
  · rw [hrs, hdel]
    exact hf.sched_one
  · rw [hrs, hdel]
    exact hf.out_nil
  · rw [hev, List.countP_append, List.countP_append, hf.noOutEv]
    rfl
  · rw [hev, List.countP_append, List.countP_append, hf.pre.noStopInvEv]
    rfl
  · rw [hev, List.countP_append, List.countP_append, hf.schedEv1]
    rfl
  · rw [hev, List.append_assoc]
    exact stopAfterSched_append st.events _
      (no_ev_of_countP_zero _ _ hf.pre.noStopInvEv)
      (stopSched_mem_of_countP _ hf.schedEv1)
  · rw [hev, List.append_assoc]
    exact rejectionAfterStop_append st.events _
      (no_ev_of_countP_zero _ _ hf.pre.noResultEv)
  · refine ⟨tl ++ [Event.stopInvoked] ++ [Event.resultRejected e], ?_⟩
    rw [hev, htl]
    simp
  · rw [hrs, hdel]

theorem final_ok_spec (st : OrchState) (ho : OkSt st) :
    OkFinal (deliverResult (runScheduled st)) := by
  have hrs : runScheduled st = execTask Task.stop st := by
    rw [runScheduled, ho.sched_one]
    rfl
  have hagg1 : (execTask Task.stop st).agg = Agg.resolvedOk := ho.agg_ok
  have hdel : deliverResult (execTask Task.stop st) =
      { reactor := (execTask Task.stop st).reactor,
        registry := (execTask Task.stop st).registry,
        stdout := (execTask Task.stop st).stdout,
        result := some (Except.ok ()),
        agg := Agg.resolvedOk,
        events := (execTask Task.stop st).events ++ [Event.resultResolved] } := by
    rw [deliverResult, hagg1]
  have hev : (deliverResult (runScheduled st)).events
      = st.events ++ [Event.stopInvoked] ++ [Event.resultResolved] := by
    rw [hrs, hdel]
    rfl
  obtain ⟨tl, htl⟩ := ho.pre.head_started
  refine ⟨?_, ?_, ?_, ?_, ?_, ?_, ?_, ?_, ?_, ?_, ?_, ?_⟩
  · rw [hrs, hdel]
  · rw [hrs, hdel]
    show st.reactor.stopCount + 1 = 1
    rw [ho.pre.stopCount0]
  · rw [hrs, hdel]
    rfl
  · rw [hrs, hdel]
    exact ho.sched_one
  · rw [hrs, hdel]
    show st.stdout = formatted st.registry
    exact ho.out_eq
  · rw [hev, List.countP_append, List.countP_append, ho.outEv1]
    rfl
  · rw [hev, List.countP_append, List.countP_append, ho.pre.noStopInvEv]
    rfl
  · rw [hev, List.countP_append, List.countP_append, ho.schedEv1]
    rfl
  · rw [hev, List.append_assoc]
    exact stopAfterSched_append st.events _
      (no_ev_of_countP_zero _ _ ho.pre.noStopInvEv)
      (stopSched_mem_of_countP _ ho.schedEv1)
  · refine ⟨tl ++ [Event.stopInvoked] ++ [Event.resultResolved], ?_⟩
    rw [hev, htl]
    simp
  · rw [hrs, hdel]
    exact ho.contrib_full
  · rw [hrs, hdel]

theorem runSysinfo_waiting_eq (st : OrchState) (hw : WaitingSt st) :
    deliverResult (runScheduled st) = st := by
  have h1 : runScheduled st = st := by
    rw [runScheduled, hw.core.sched_nil]
    rfl
  obtain ⟨pend, hagg, _⟩ := hw.wait
  rw [h1, deliverResult, hagg]

/-- Every completed pipeline run is in exactly one of three terminal shapes:
the aggregate future is still open (and then the closing phases did
nothing), the run failed, or the run succeeded. -/
theorem runSysinfo_tri (plugins : List Plugin) (ov : Option SysErr) (order : List Nat) :
    (WaitingSt (runSysinfo plugins ov order) ∧
      runSysinfo plugins ov order = runUntilResolved plugins ov order) ∨
    (∃ e, FailedFinal (runSysinfo plugins ov order) e) ∨
    OkFinal (runSysinfo plugins ov order) := by
  rcases triSt_runUntilResolved plugins ov order with hw | hf | ho
  · left
    have heq : runSysinfo plugins ov order = runUntilResolved plugins ov order :=
      runSysinfo_waiting_eq _ hw
    exact ⟨heq ▸ hw, heq⟩
  · obtain ⟨e, hagg⟩ := hf.failed
    exact Or.inr (Or.inl ⟨e, final_failed_spec _ hf e hagg⟩)
  · exact Or.inr (Or.inr (final_ok_spec _ ho))

theorem runScheduled_registry (st : OrchState) : (runScheduled st).registry = st.registry :=
  (foldl_exec_proj st.reactor.scheduled_calls st).2.1

theorem fold_resolve_resolved (order : List Nat) (st : OrchState)
    (h : ∀ pend, st.agg ≠ Agg.waiting pend) :
    order.foldl resolveFuture st = st := by
  induction order with
  | nil => rfl
  | cons i rest ih => rw [List.foldl_cons, resolveFuture_not_waiting st i h, ih]

/-- With a registry whose `run` raises synchronously, the whole pipeline up
to the scheduled-task phase is the failure transition applied right after
the callback fired; later resolution attempts change nothing. -/
theorem runUntilResolved_override (plugins : List Plugin) (e : SysErr) (order : List Nat) :
    runUntilResolved plugins (some e) order
      = finalizeFailure e { setupRun plugins with
          events := (setupRun plugins).events ++ [Event.callbackFired] } := by
  rw [runUntilResolved]
  have hq : runQueuedCalls (some e) (setupRun plugins)
      = finalizeFailure e { setupRun plugins with
          events := (setupRun plugins).events ++ [Event.callbackFired] } := rfl
  rw [hq]
  apply fold_resolve_resolved
  intro pend hc
  simp [finalizeFailure] at hc

theorem activatePlugins_firstUnknown (ids : List String)
    (available : List (String × Plugin)) (n : String)
    (h : firstUnknown ids available = some n) :
    activatePlugins ids available = Except.error (SysErr.unknownPluginError n) := by
  induction ids with
  | nil => simp [firstUnknown] at h
  | cons m rest ih =>
    cases hl : available.lookup m with
    | none =>
      have hfind : List.find? (fun s => (available.lookup s).isNone) (m :: rest)
          = some m := by
        apply List.find?_cons_of_pos
        rw [hl]
        rfl
      rw [firstUnknown, hfind] at h
      injection h with hmn
      subst hmn
      rw [activatePlugins, hl]
    | some p =>
      have hfind : List.find? (fun s => (available.lookup s).isNone) (m :: rest)
          = List.find? (fun s => (available.lookup s).isNone) rest := by
        apply List.find?_cons_of_neg
        rw [hl]
        simp
      rw [firstUnknown, hfind] at h
      rw [activatePlugins, hl, ih h]

/-! ## The claims -/

/-- C1: for every run of the orchestrator that reaches a terminal state, on
both the success and the failure path, the event loop's `stop` primitive is
invoked exactly once, and only through the zero-delay scheduled task: before
the scheduled tasks execute the stop count is `0` and the scheduled-call
list equals `[(0, stop, (), {})]` (modelled `[(0, Task.stop)]`), after the
whole run the stop count is `1`, the trace holds exactly one stop
invocation, and no stop invocation occurs before the stop task was
scheduled — in particular never synchronously inside the run-when-started
callback. -/
theorem claim1_stop_discipline (plugins : List Plugin) (sysinfoRaise : Option SysErr)
    (order : List Nat)
    (h : aggResolved (runSysinfo plugins sysinfoRaise order).agg = true) :
    (runUntilResolved plugins sysinfoRaise order).reactor.stopCount = 0 ∧
    (runUntilResolved plugins sysinfoRaise order).reactor.scheduled_calls
        = [(0, Task.stop)] ∧
    (runSysinfo plugins sysinfoRaise order).reactor.scheduled_calls
        = [(0, Task.stop)] ∧
    (runSysinfo plugins sysinfoRaise order).reactor.stopCount = 1 ∧
    (runSysinfo plugins sysinfoRaise order).events.countP isStopInvoked = 1 ∧
    stopAfterSched (runSysinfo plugins sysinfoRaise order).events = true := by
  rcases triSt_runUntilResolved plugins sysinfoRaise order with hw | hf | ho
  · obtain ⟨pend, hagg, _⟩ := hw.wait
    have heq := runSysinfo_waiting_eq _ hw
    have hfin : (runSysinfo plugins sysinfoRaise order).agg = Agg.waiting pend := by
      show (deliverResult (runScheduled _)).agg = _
      rw [heq]
      exact hagg
    rw [hfin] at h
    simp [aggResolved] at h
  · obtain ⟨e, hagg⟩ := hf.failed
    have hfin := final_failed_spec _ hf e hagg
    exact ⟨hf.pre.stopCount0, hf.sched_one, hfin.sched_one, hfin.stopCount1,
      hfin.stopInv1, hfin.stop_disc⟩
  · have hfin := final_ok_spec _ ho
    exact ⟨ho.pre.stopCount0, ho.sched_one, hfin.sched_one, hfin.stopCount1,
      hfin.stopInv1, hfin.stop_disc⟩

theorem claim1_witness :
    aggResolved (runSysinfo [testPlugin] none []).agg = true ∧
    ((runUntilResolved [testPlugin] none []).reactor.stopCount = 0 ∧
     (runUntilResolved [testPlugin] none []).reactor.scheduled_calls
         = [(0, Task.stop)] ∧
     (runSysinfo [testPlugin] none []).reactor.scheduled_calls = [(0, Task.stop)] ∧
     (runSysinfo [testPlugin] none []).reactor.stopCount = 1 ∧
     (runSysinfo [testPlugin] none []).events.countP isStopInvoked = 1 ∧
     stopAfterSched (runSysinfo [testPlugin] none []).events = true) :=
  ⟨by decide, claim1_stop_discipline [testPlugin] none [] (by decide)⟩

/-- C2: if the registry's `run` raises synchronously (as when `sysinfo.run`
is replaced with `lambda: 1 / 0`), the orchestrator still schedules the
loop stop exactly once as the zero-delay task `[(0, stop, (), {})]`
(modelled `[(0, Task.stop)]`), and the overall result future is rejected
with that same original error; the rejection is surfaced only after the
loop has stopped. -/
theorem claim2_sync_raise (plugins : List Plugin) (e : SysErr) (order : List Nat) :
    (runUntilResolved plugins (some e) order).reactor.scheduled_calls
        = [(0, Task.stop)] ∧
    (runSysinfo plugins (some e) order).reactor.scheduled_calls = [(0, Task.stop)] ∧
    (runSysinfo plugins (some e) order).events.countP isStopSched = 1 ∧
    (runSysinfo plugins (some e) order).result = some (Except.error e) ∧
    (runSysinfo plugins (some e) order).reactor.running = false ∧
    (runSysinfo plugins (some e) order).reactor.stopCount = 1 ∧
    rejectionAfterStop (runSysinfo plugins (some e) order).events = true := by
  have hmid := runUntilResolved_override plugins e order
  rcases triSt_runUntilResolved plugins (some e) order with hw | hf | ho
  · obtain ⟨pend, hagg, _⟩ := hw.wait
    rw [hmid] at hagg
    simp [finalizeFailure] at hagg
  · have hagg : (runUntilResolved plugins (some e) order).agg = Agg.resolvedErr e := by
      rw [hmid]
      rfl
    have hfin := final_failed_spec _ hf e hagg
    exact ⟨hf.sched_one, hfin.sched_one, hfin.schedEv1, hfin.result_err,
      hfin.not_running, hfin.stopCount1, hfin.rej_after⟩
  · have hagg := ho.agg_ok
    rw [hmid] at hagg
    simp [finalizeFailure] at hagg

/-- C3: nothing is written to the output stream while the aggregate
completion future is still open; in the concrete scenario of a plugin whose
`run` returns a still-pending future, the output stream is empty right
after the callback has fired, and immediately after the future resolves the
formatted output — containing the plugin's note — is on the stream. -/
theorem claim3_output_after_resolution :
    (∀ (plugins : List Plugin) (order : List Nat) (pend : List Nat),
      (runUntilResolved plugins none order).agg = Agg.waiting pend →
      (runUntilResolved plugins none order).stdout = "") ∧
    (runQueuedCalls none (setupRun [testPluginPending])).stdout = "" ∧
    (resolveFuture (runQueuedCalls none (setupRun [testPluginPending])) 0).stdout
        = "  Test header: Test value\n\n  => Test note\n\n  Test footnote\n" ∧
    (∃ pre post,
      (resolveFuture (runQueuedCalls none (setupRun [testPluginPending])) 0).stdout
        = pre ++ "Test note" ++ post) := by
  refine ⟨?_, ?_, ?_, ?_⟩
  · intro plugins order pend hagg
    rcases triSt_runUntilResolved plugins none order with hw | hf | ho
    · exact hw.core.out_nil
    · obtain ⟨e, hagg'⟩ := hf.failed
      rw [hagg'] at hagg
      simp at hagg
    · rw [ho.agg_ok] at hagg
      simp at hagg
  · rfl
  · decide
  · exact ⟨"  Test header: Test value\n\n  => ", "\n\n  Test footnote\n", by decide⟩

theorem claim3_witness :
    (runUntilResolved [testPluginPending] none []).stdout = "" :=
  claim3_output_after_resolution.1 [testPluginPending] [] [0] (by decide)

/-- C4: for any activation sequence and any completion order of the
asynchronous work, once the aggregate run future has resolved successfully,
`get_headers()`, `get_notes()` and `get_footnotes()` equal the
concatenation of the values contributed by the plugins in activation
order — independent of the resolution order. -/
theorem claim4_activation_order (plugins : List Plugin) (sysinfoRaise : Option SysErr)
    (order : List Nat)
    (h : (runSysinfo plugins sysinfoRaise order).agg = Agg.resolvedOk) :
    (runSysinfo plugins sysinfoRaise order).registry.get_headers
        = concatContrib Plugin.headers plugins ∧
    (runSysinfo plugins sysinfoRaise order).registry.get_notes
        = concatContrib Plugin.notes plugins ∧
    (runSysinfo plugins sysinfoRaise order).registry.get_footnotes
        = concatContrib Plugin.footnotes plugins := by
  rcases runSysinfo_tri plugins sysinfoRaise order with ⟨hw, _⟩ | ⟨e, hfin⟩ | hfin
  · obtain ⟨pend, hagg, _⟩ := hw.wait
    rw [hagg] at h
    simp at h
  · rw [hfin.agg_err] at h
    simp at h
  · have hpl : (runSysinfo plugins sysinfoRaise order).registry.plugins = plugins := by
      have hreg : (runSysinfo plugins sysinfoRaise order).registry
          = (runUntilResolved plugins sysinfoRaise order).registry := by
        show (deliverResult (runScheduled _)).registry = _
        rw [(deliverResult_proj _).2.1, runScheduled_registry]
      rw [hreg, runUntilResolved_plugins]
    refine ⟨?_, ?_, ?_⟩
    · rw [Registry.get_headers, hfin.contrib_full, hpl, collect_replicate_true]
    · rw [Registry.get_notes, hfin.contrib_full, hpl, collect_replicate_true]
    · rw [Registry.get_footnotes, hfin.contrib_full, hpl, collect_replicate_true]

/-- Two asynchronous plugins used to exercise out-of-activation-order
completion. -/
def pluginA : Plugin :=
  { name := "A", headers := [("header A", "value A")], notes := ["note A"],
    footnotes := ["footnote A"], behavior := RunBehavior.pendingF none }

def pluginB : Plugin :=
  { name := "B", headers := [("header B", "value B")], notes := ["note B"],
    footnotes := ["footnote B"], behavior := RunBehavior.pendingF none }

theorem claim4_witness :
    (runSysinfo [pluginA, pluginB] none [1, 0]).agg = Agg.resolvedOk ∧
    ((runSysinfo [pluginA, pluginB] none [1, 0]).registry.get_headers
        = concatContrib Plugin.headers [pluginA, pluginB] ∧
     (runSysinfo [pluginA, pluginB] none [1, 0]).registry.get_notes
        = concatContrib Plugin.notes [pluginA, pluginB] ∧
     (runSysinfo [pluginA, pluginB] none [1, 0]).registry.get_footnotes
        = concatContrib Plugin.footnotes [pluginA, pluginB]) :=
  ⟨by decide, claim4_activation_order [pluginA, pluginB] none [1, 0] (by decide)⟩

/-- C5: a successful run with the one test plugin — header
`("Test header", "Test value")`, note `"Test note"`, footnote
`"Test footnote"` — writes to standard output exactly
`"  Test header: Test value\n\n  => Test note\n\n  Test footnote\n"`. -/
theorem claim5_exact_output :
    (runSysinfo [testPlugin] none []).stdout
      = "  Test header: Test value\n\n  => Test note\n\n  Test footnote\n" := by
  decide

/-- C6: activation with the identifier sequence `"A,B"` yields exactly the
two plugin instances of `A` then `B`, in that order; and excluding every
identifier except one from the full available set yields the single-element
activation list holding only the retained plugin. -/
theorem claim6_selection :
    (∀ pA pB : Plugin,
      get_plugins (some "A,B") none ALL_PLUGINS [("A", pA), ("B", pB)]
        = Except.ok [pA, pB]) ∧
    (∀ retained ∈ ALL_PLUGINS,
      get_plugins none
          (some (String.intercalate "," (ALL_PLUGINS.filter (fun n => n != retained))))
          ALL_PLUGINS (ALL_PLUGINS.map (fun n => (n, mkNamed n)))
        = Except.ok [mkNamed retained]) := by
  constructor
  · intro pA pB
    rfl
  · decide

theorem claim6_witness :
    get_plugins (some "A,B") none ALL_PLUGINS
        [("A", testPlugin), ("B", mkNamed "B")] = Except.ok [testPlugin, mkNamed "B"] ∧
    get_plugins none
        (some (String.intercalate "," (ALL_PLUGINS.filter (fun n => n != "Load"))))
        ALL_PLUGINS (ALL_PLUGINS.map (fun n => (n, mkNamed n)))
      = Except.ok [mkNamed "Load"] :=
  ⟨claim6_selection.1 testPlugin (mkNamed "B"),
   claim6_selection.2 "Load" (by decide)⟩

/-- C7: plugins run only after the event loop has signalled it is running:
right after setup the loop is running but no plugin has been invoked,
nothing has been written, and no contribution slot is filled; and over any
whole run, no plugin invocation precedes the loop-started signal in the
trace. -/
theorem claim7_plugins_after_loop_start (plugins : List Plugin)
    (sysinfoRaise : Option SysErr) (order : List Nat) :
    (setupRun plugins).reactor.running = true ∧
    (setupRun plugins).stdout = "" ∧
    (setupRun plugins).events.countP isPluginEv = 0 ∧
    (setupRun plugins).registry.contributed = plugins.map (fun _ => false) ∧
    noPluginBeforeStart (runSysinfo plugins sysinfoRaise order).events = true := by
  refine ⟨rfl, rfl, rfl, rfl, ?_⟩
  have hhead : ∃ tl, (runSysinfo plugins sysinfoRaise order).events
      = Event.loopStarted :: tl := by
    rcases runSysinfo_tri plugins sysinfoRaise order with ⟨hw, _⟩ | ⟨e, hfin⟩ | hfin
    · exact hw.core.pre.head_started
    · exact hfin.head_started
    · exact hfin.head_started
  obtain ⟨tl, htl⟩ := hhead
  rw [htl]
  rfl

/-- C8: a failed run writes no formatted output block (empty stream, zero
output events), while a successful run writes exactly one block — the
formatted registry contents. -/
theorem claim8_output_once (plugins : List Plugin) (sysinfoRaise : Option SysErr)
    (order : List Nat) :
    (∀ e, (runSysinfo plugins sysinfoRaise order).agg = Agg.resolvedErr e →
      (runSysinfo plugins sysinfoRaise order).stdout = "" ∧
      (runSysinfo plugins sysinfoRaise order).events.countP isOutputEv = 0) ∧
    ((runSysinfo plugins sysinfoRaise order).agg = Agg.resolvedOk →
      (runSysinfo plugins sysinfoRaise order).stdout
          = formatted (runSysinfo plugins sysinfoRaise order).registry ∧
      (runSysinfo plugins sysinfoRaise order).events.countP isOutputEv = 1) := by
  constructor
  · intro e hagg
    rcases runSysinfo_tri plugins sysinfoRaise order with ⟨hw, _⟩ | ⟨e', hfin⟩ | hfin
    · obtain ⟨pend, hagg', _⟩ := hw.wait
      rw [hagg'] at hagg
      simp at hagg
    · exact ⟨hfin.out_nil, hfin.noOutEv⟩
    · rw [hfin.agg_ok] at hagg
      simp at hagg
  · intro hagg
    rcases runSysinfo_tri plugins sysinfoRaise order with ⟨hw, _⟩ | ⟨e', hfin⟩ | hfin
    · obtain ⟨pend, hagg', _⟩ := hw.wait
      rw [hagg'] at hagg
      simp at hagg
    · rw [hfin.agg_err] at hagg
      simp at hagg
    · exact ⟨hfin.out_eq, hfin.outEv1⟩

theorem claim8_witness :
    ((runSysinfo [testPlugin] (some SysErr.zeroDivisionError) []).agg
        = Agg.resolvedErr SysErr.zeroDivisionError ∧
      (runSysinfo [testPlugin] (some SysErr.zeroDivisionError) []).stdout = "" ∧
      (runSysinfo [testPlugin] (some SysErr.zeroDivisionError) []).events.countP
          isOutputEv = 0) ∧
    ((runSysinfo [testPlugin] none []).agg = Agg.resolvedOk ∧
      (runSysinfo [testPlugin] none []).stdout
          = formatted (runSysinfo [testPlugin] none []).registry ∧
      (runSysinfo [testPlugin] none []).events.countP isOutputEv = 1) :=
  ⟨⟨by decide,
    claim8_output_once [testPlugin] (some SysErr.zeroDivisionError) []
      |>.1 SysErr.zeroDivisionError (by decide)⟩,
   ⟨by decide, (claim8_output_once [testPlugin] none []).2 (by decide)⟩⟩

/-- C9: whenever the identifier sequence holds a name with no known
constructor, activation fails with `UnknownPluginError` carrying the first
such name, and the entry point returns that error without ever building an
orchestration state — the event loop is never started and the state machine
is never entered. -/
theorem claim9_unknown_plugin (ids : List String)
    (available : List (String × Plugin)) (sysinfoRaise : Option SysErr)
    (order : List Nat) (n : String)
    (h : firstUnknown ids available = some n) :
    runTop ids available sysinfoRaise order
      = Except.error (SysErr.unknownPluginError n) := by
  rw [runTop, activatePlugins_firstUnknown ids available n h]

theorem claim9_witness :
    firstUnknown ["Load", "Bogus"] [("Load", mkNamed "Load")] = some "Bogus" ∧
    runTop ["Load", "Bogus"] [("Load", mkNamed "Load")] none []
      = Except.error (SysErr.unknownPluginError "Bogus") :=
  ⟨by decide,
   claim9_unknown_plugin ["Load", "Bogus"] [("Load", mkNamed "Load")] none []
     "Bogus" (by decide)⟩

end Sysinfo

namespace Versioning

/-- C10: the version comparison `is_version_higher(a, b)` is non-strict
despite its name: for every version string `v`, `is_version_higher v v`
returns `true`; it returns `true` when `a` compares greater than `b` and
`false` when `a` compares lower than `b`. -/
theorem claim10_version_nonstrict :
    (∀ v : String, is_version_higher v v = true) ∧
    (∀ a b : String,
      cmpVer (parseVersion a) (parseVersion b) = Ordering.gt →
      is_version_higher a b = true) ∧
    (∀ a b : String,
      cmpVer (parseVersion a) (parseVersion b) = Ordering.lt →
      is_version_higher a b = false) := by
  refine ⟨?_, ?_, ?_⟩
  · intro v
    rw [is_version_higher, cmpVer_self]
  · intro a b h
    rw [is_version_higher, h]
  · intro a b h
    rw [is_version_higher, h]

theorem claim10_witness :
    is_version_higher "3.1" "3.1" = true ∧
    (cmpVer (parseVersion "3.2") (parseVersion "3.1") = Ordering.gt ∧
      is_version_higher "3.2" "3.1" = true) ∧
    (cmpVer (parseVersion "3.1") (parseVersion "3.2") = Ordering.lt ∧
      is_version_higher "3.1" "3.2" = false) :=
  ⟨claim10_version_nonstrict.1 "3.1",
   ⟨by decide, claim10_version_nonstrict.2.1 "3.2" "3.1" (by decide)⟩,
   ⟨by decide, claim10_version_nonstrict.2.2 "3.1" "3.2" (by decide)⟩⟩

end Versioning

end Landscape
